import Mathlib

/-!
Verification of the authentication-and-session plane of the mcp-server-db2i
repository: a shallow embedding in Lean 4 of the token manager
(src/auth/tokenManager.ts), the rate limiter (src/utils/rateLimiter.ts),
the MCP session manager (src/transports/sessionManager.ts), the session
pool registry (src/db/connection.ts), the auth middleware
(src/auth/authMiddleware.ts) and the relevant request paths of the HTTP
transport (src/transports/http.ts), together with theorems settling the
specification claims about them.

JavaScript Map objects are embedded as association lists with the Map
operational semantics (set replaces in place or appends, delete removes the
entry, keys are unique in every reachable state).  Times are integers
(milliseconds since the epoch, as produced by Date.now and Date.getTime).
External side effects that the claims observe - invocations of the token
cleanup callback, of transport.close, server.close and pool.close - are
recorded in event logs threaded through the state.
-/

namespace MCPServer

/-! ## Association-list embedding of the JavaScript Map -/

def mapGet {α : Type} : List (String × α) → String → Option α
  | [], _ => none
  | p :: rest, k => if p.1 == k then some p.2 else mapGet rest k

def mapSet {α : Type} : List (String × α) → String → α → List (String × α)
  | [], k, v => [(k, v)]
  | p :: rest, k, v => if p.1 == k then (k, v) :: rest else p :: mapSet rest k v

def mapDelete {α : Type} (m : List (String × α)) (k : String) : List (String × α) :=
  m.filter (fun p => p.1 != k)

/-! ## Data model (src/config.ts, src/auth/types.ts) -/

/-- DB2iConfig from src/config.ts (the jdbcOptions map carries no claim and is
embedded as a list of string pairs). -/
structure DB2iConfig where
  hostname : String
  port : Nat
  username : String
  password : String
  database : String
  schema : String
  jdbcOptions : List (String × String)
  deriving Repr, DecidableEq

/-- The fields of HttpConfig that the token manager reads. -/
structure HttpLimits where
  maxSessions : Nat
  tokenExpiry : Int
  deriving Repr, DecidableEq

/-- TokenSession from src/auth/types.ts. -/
structure TokenSession where
  token : String
  config : DB2iConfig
  createdAt : Int
  expiresAt : Int
  lastUsedAt : Int
  mcpSessionId : Option String := none
  deriving Repr, DecidableEq

/-! ## Token manager (src/auth/tokenManager.ts)

The TokenManager instance state is its sessions map.  The cleanup callback
is an external function reference; the embedding records in cleanupLog the
tokens passed to notifyCleanup, in invocation order (when a callback is
registered it is invoked exactly on those tokens; exceptions it throws are
caught inside notifyCleanup and do not alter control flow). -/

structure TokenManagerState where
  sessions : List (String × TokenSession)
  cleanupLog : List String
  deriving Repr, DecidableEq

def TokenManagerState.init : TokenManagerState := ⟨[], []⟩

/-- Result record of TokenManager.createSession. -/
structure CreateSessionResult where
  token : String
  expiresAt : Int
  expiresIn : Int
  deriving Repr, DecidableEq

/-- The error text thrown by createSession at the session cap (line 73). -/
def maxSessionsMessage (n : Nat) : String :=
  "Maximum concurrent sessions (" ++ toString n ++ ") reached. Please try again later."

/-- TokenManager.createSession, lines 65-104 of tokenManager.ts.  The token
minted by generateTokenString is passed in as freshToken (32 random bytes in
base64url, hence 43 characters).  The function is synchronous in the source -
no await separates the size check from the insertion - so it is one atomic
step here. -/
def createSession (lim : HttpLimits) (st : TokenManagerState) (config : DB2iConfig)
    (durationSeconds : Option Int) (now : Int) (freshToken : String) :
    Except String (CreateSessionResult × TokenManagerState) :=
  if st.sessions.length ≥ lim.maxSessions then
    .error (maxSessionsMessage lim.maxSessions)
  else
    let expiresIn := durationSeconds.getD lim.tokenExpiry
    let expiresAt := now + expiresIn * 1000
    let session : TokenSession :=
      { token := freshToken, config := config, createdAt := now,
        expiresAt := expiresAt, lastUsedAt := now }
    .ok ({ token := freshToken, expiresAt := expiresAt, expiresIn := expiresIn },
      { st with sessions := mapSet st.sessions freshToken session })

/-- Result of TokenManager.validateToken. -/
inductive TokenValidationResult
  | invalid (error : String)
  | valid (session : TokenSession)
  deriving Repr, DecidableEq

/-- TokenManager.validateToken, lines 112-138 of tokenManager.ts.  On the
expired branch the source deletes the entry and returns the error; it does
not call notifyCleanup there (the cleanupLog is left unchanged). -/
def validateToken (st : TokenManagerState) (token : String) (now : Int) :
    TokenValidationResult × TokenManagerState :=
  if token == "" then (.invalid "Invalid token format", st)
  else
    match mapGet st.sessions token with
    | none => (.invalid "Token not found or expired", st)
    | some session =>
      if now > session.expiresAt then
        (.invalid "Token expired", { st with sessions := mapDelete st.sessions token })
      else
        let session' := { session with lastUsedAt := now }
        (.valid session', { st with sessions := mapSet st.sessions token session' })

/-- TokenManager.revokeToken, lines 169-188: delete if present, then notify
the cleanup callback, and return whether something was deleted. -/
def revokeToken (st : TokenManagerState) (token : String) : Bool × TokenManagerState :=
  match mapGet st.sessions token with
  | none => (false, st)
  | some _ =>
    (true, { sessions := mapDelete st.sessions token,
             cleanupLog := st.cleanupLog ++ [token] })

/-- TokenManager.cleanupExpiredSessions, lines 220-244: collect the expired
tokens, then delete each and notify the cleanup callback for each. -/
def cleanupExpiredSessions (st : TokenManagerState) (now : Int) : TokenManagerState :=
  let expiredTokens := (st.sessions.filter (fun p => decide (now > p.2.expiresAt))).map Prod.fst
  { sessions := expiredTokens.foldl (fun m t => mapDelete m t) st.sessions,
    cleanupLog := st.cleanupLog ++ expiredTokens }

/-- TokenManager.shutdown, lines 271-287: notify the cleanup callback for
every remaining token, then clear the map. -/
def tokenManagerShutdown (st : TokenManagerState) : TokenManagerState :=
  { sessions := [],
    cleanupLog := st.cleanupLog ++ st.sessions.map Prod.fst }

/-- TokenManager.canCreateSession, lines 298-301. -/
def canCreateSession (lim : HttpLimits) (st : TokenManagerState) : Bool :=
  st.sessions.length < lim.maxSessions

/-- The operations that mutate the token store, for trace reasoning.  Each
source operation is synchronous between its map accesses, so each is one
step. -/
inductive TokenOp
  | create (config : DB2iConfig) (durationSeconds : Option Int) (now : Int) (freshToken : String)
  | validate (token : String) (now : Int)
  | revoke (token : String)
  | cleanupExpired (now : Int)
  | shutdown

def tokenStep (lim : HttpLimits) (st : TokenManagerState) : TokenOp → TokenManagerState
  | .create config d now tok =>
    match createSession lim st config d now tok with
    | .ok (_, st') => st'
    | .error _ => st
  | .validate tok now => (validateToken st tok now).2
  | .revoke tok => (revokeToken st tok).2
  | .cleanupExpired now => cleanupExpiredSessions st now
  | .shutdown => tokenManagerShutdown st

def runTokenOps (lim : HttpLimits) (st : TokenManagerState) (ops : List TokenOp) :
    TokenManagerState :=
  ops.foldl (tokenStep lim) st

/-! ## Rate limiter (src/utils/rateLimiter.ts) -/

structure RateLimitConfig where
  windowMs : Nat
  maxRequests : Nat
  enabled : Bool
  deriving Repr, DecidableEq

structure WindowData where
  count : Nat
  windowStart : Nat
  deriving Repr, DecidableEq

structure RateLimiterState where
  windows : List (String × WindowData)
  deriving Repr, DecidableEq

structure RateLimitResult where
  allowed : Bool
  remaining : Nat
  resetTime : Nat
  retryAfterSeconds : Nat
  limit : Nat
  windowMs : Nat
  deriving Repr, DecidableEq

/-- The reset condition of line 124 of rateLimiter.ts: no stored window
for the key, or the stored window has expired. -/
def windowResets (cfg : RateLimitConfig) (st : RateLimiterState) (key : String)
    (now : Nat) : Bool :=
  match mapGet st.windows key with
  | none => true
  | some w => decide (now ≥ w.windowStart + cfg.windowMs)

/-- The window the check operates on after the absent-or-expired reset of
lines 121-130: a fresh window starting at now with count 0, or the stored
one. -/
def effectiveWindow (cfg : RateLimitConfig) (st : RateLimiterState) (key : String)
    (now : Nat) : WindowData :=
  if windowResets cfg st key now then ⟨0, now⟩
  else (mapGet st.windows key).getD ⟨0, now⟩

/-- RateLimiter.checkLimit, lines 106-170 of rateLimiter.ts.  Times are
naturals (Date.now); resetTime is never below now on any path, so the Nat
subtraction in retryAfterSeconds agrees with the source arithmetic, and
(x + 999) / 1000 in Nat is the Math.ceil(x / 1000) of the source. -/
def checkLimit (cfg : RateLimitConfig) (st : RateLimiterState) (key : String) (now : Nat) :
    RateLimitResult × RateLimiterState :=
  if !cfg.enabled then
    ({ allowed := true, remaining := cfg.maxRequests, resetTime := now + cfg.windowMs,
       retryAfterSeconds := 0, limit := cfg.maxRequests, windowMs := cfg.windowMs }, st)
  else
    let reset := windowResets cfg st key now
    let window := effectiveWindow cfg st key now
    let st1 : RateLimiterState :=
      if reset then ⟨mapSet st.windows key window⟩ else st
    let resetTime := window.windowStart + cfg.windowMs
    let retryAfterSeconds := (resetTime - now + 999) / 1000
    if window.count ≥ cfg.maxRequests then
      ({ allowed := false, remaining := 0, resetTime := resetTime,
         retryAfterSeconds := retryAfterSeconds, limit := cfg.maxRequests,
         windowMs := cfg.windowMs }, st1)
    else
      let newCount := window.count + 1
      ({ allowed := true, remaining := cfg.maxRequests - newCount, resetTime := resetTime,
         retryAfterSeconds := retryAfterSeconds, limit := cfg.maxRequests,
         windowMs := cfg.windowMs },
       ⟨mapSet st1.windows key { window with count := newCount }⟩)

/-! ## MCP session manager (src/transports/sessionManager.ts)

The server and transport objects attached to a session are external
collaborators; the claims observe only which sessions have transport.close
and server.close invoked, recorded in the two logs.  closeSession is
async: its entry guard, the isClosing flip and the two close invocations
run synchronously up to the first await (closeSessionStart); the final
deletion of the entry runs after the awaited closes return
(closeSessionFinish).  Every closing path of the source - close by id,
closeSessionsByToken, the idle sweeper and shutdown - funnels through
closeSession, so traces over these two steps cover all their
interleavings. -/

structure McpSession where
  id : String
  authToken : String
  createdAt : Nat
  lastAccessedAt : Nat
  activeRequests : Nat
  isClosing : Bool
  deriving Repr, DecidableEq

structure SessionManagerState where
  sessions : List (String × McpSession)
  transportCloseLog : List String
  serverCloseLog : List String
  deriving Repr, DecidableEq

def SessionManagerState.init : SessionManagerState := ⟨[], [], []⟩

/-- SessionManager.closeSession lines 172-191: the guard, the isClosing
flip and the transport.close / server.close invocations.  If
transport.close throws, the try block is left before server.close runs
(transportCloseThrows = true); the catch only logs. -/
def closeSessionStart (st : SessionManagerState) (sessionId : String)
    (transportCloseThrows : Bool) : Bool × SessionManagerState :=
  match mapGet st.sessions sessionId with
  | none => (false, st)
  | some s =>
    if s.isClosing then (false, st)
    else
      (true,
        { sessions := mapSet st.sessions sessionId { s with isClosing := true },
          transportCloseLog := st.transportCloseLog ++ [sessionId],
          serverCloseLog :=
            if transportCloseThrows then st.serverCloseLog
            else st.serverCloseLog ++ [sessionId] })

/-- SessionManager.closeSession lines 192-199: after the closes return the
entry is deleted (the guard of the running call has already fired, so the
entry is present with isClosing = true; the deletion is guarded here so
that a stray finish step is a no-op). -/
def closeSessionFinish (st : SessionManagerState) (sessionId : String) :
    SessionManagerState :=
  match mapGet st.sessions sessionId with
  | some s =>
    if s.isClosing then { st with sessions := mapDelete st.sessions sessionId } else st
  | none => st

/-- SessionManager.createSession lines 69-112 (the map mutation; the id is
the fresh randomUUID). -/
def smCreateSession (st : SessionManagerState) (sessionId authToken : String)
    (now : Nat) : SessionManagerState :=
  let s : McpSession :=
    { id := sessionId, authToken := authToken, createdAt := now,
      lastAccessedAt := now, activeRequests := 0, isClosing := false }
  { st with sessions := mapSet st.sessions sessionId s }

/-- SessionManager.getSession lines 117-124. -/
def smGetSession (st : SessionManagerState) (sessionId : String) (now : Nat) :
    Option McpSession × SessionManagerState :=
  match mapGet st.sessions sessionId with
  | some s =>
    if s.isClosing then (none, st)
    else
      let s' := { s with lastAccessedAt := now }
      (some s', { st with sessions := mapSet st.sessions sessionId s' })
  | none => (none, st)

/-- SessionManager.incrementActiveRequests lines 150-156. -/
def smIncrement (st : SessionManagerState) (sessionId : String) (now : Nat) :
    SessionManagerState :=
  match mapGet st.sessions sessionId with
  | some s =>
    let s' := { s with activeRequests := s.activeRequests + 1, lastAccessedAt := now }
    { st with sessions := mapSet st.sessions sessionId s' }
  | none => st

/-- SessionManager.decrementActiveRequests lines 161-167 (never below
zero). -/
def smDecrement (st : SessionManagerState) (sessionId : String) (now : Nat) :
    SessionManagerState :=
  match mapGet st.sessions sessionId with
  | some s =>
    if s.activeRequests > 0 then
      let s' := { s with activeRequests := s.activeRequests - 1, lastAccessedAt := now }
      { st with sessions := mapSet st.sessions sessionId s' }
    else st
  | none => st

/-- SessionManager.cleanupStaleSessions lines 257-268: the entries selected
for closing on one sweep tick.  The source skips isClosing entries, then
selects age > staleTimeoutMs and activeRequests == 0.  The Nat subtraction
agrees with the source comparison: a JS age that would be negative makes
age > staleTimeoutMs false, as does the truncated 0 here. -/
def staleEntries (st : SessionManagerState) (now staleTimeoutMs : Nat) :
    List (String × McpSession) :=
  st.sessions.filter (fun p =>
    !p.2.isClosing && decide (now - p.2.lastAccessedAt > staleTimeoutMs) &&
      p.2.activeRequests == 0)

/-- Interleavable session-manager steps; closeSessionStart and
closeSessionFinish are the two synchronous halves of closeSession. -/
inductive SmOp
  | create (sessionId authToken : String) (now : Nat)
  | get (sessionId : String) (now : Nat)
  | increment (sessionId : String) (now : Nat)
  | decrement (sessionId : String) (now : Nat)
  | closeStart (sessionId : String) (transportCloseThrows : Bool)
  | closeFinish (sessionId : String)

def smStep (st : SessionManagerState) : SmOp → SessionManagerState
  | .create id tok now => smCreateSession st id tok now
  | .get id now => (smGetSession st id now).2
  | .increment id now => smIncrement st id now
  | .decrement id now => smDecrement st id now
  | .closeStart id th => (closeSessionStart st id th).2
  | .closeFinish id => closeSessionFinish st id

def runSmOps (st : SessionManagerState) (ops : List SmOp) : SessionManagerState :=
  ops.foldl smStep st

/-- Admissibility of a trace: each create uses a fresh randomUUID, i.e. an
id not currently stored and never closed before. -/
def smFresh (st : SessionManagerState) : List SmOp → Bool
  | [] => true
  | op :: ops =>
    (match op with
     | .create id _ _ =>
       !(mapGet st.sessions id).isSome && !(decide (id ∈ st.transportCloseLog))
     | _ => true) && smFresh (smStep st op) ops

/-- The at-most-once invariant: each session id occurs at most once in the
transport-close log, the server-close log never outruns it, and a logged
id can only be stored as a closing session. -/
def smInv (st : SessionManagerState) : Prop :=
  ∀ id : String,
    st.transportCloseLog.count id ≤ 1 ∧
    st.serverCloseLog.count id ≤ st.transportCloseLog.count id ∧
    (id ∈ st.transportCloseLog →
      ∀ s, mapGet st.sessions id = some s → s.isClosing = true)

/-! ## Session pool registry (src/db/connection.ts)

sessionPools maps pool key to the pool handle built from a config.  The
closeLog records the keys for which pool.close was invoked (the close
attempt of closeSessionPool); whether that close resolves or throws, the
source deletes the map entry, so both branches yield the same state. -/

structure PoolRegistry where
  pools : List (String × DB2iConfig)
  closeLog : List String
  deriving Repr, DecidableEq

def PoolRegistry.init : PoolRegistry := ⟨[], []⟩

/-- initializeSessionPool, lines 59-77 of connection.ts: no-op when the key
exists; otherwise build the pool (the jt400 pool constructor may throw,
modelled by buildThrows, in which case nothing was stored) and store it. -/
def initializeSessionPool (reg : PoolRegistry) (sessionId : String)
    (config : DB2iConfig) (buildThrows : Bool) : Except Unit PoolRegistry :=
  if (mapGet reg.pools sessionId).isSome then .ok reg
  else if buildThrows then .error ()
  else .ok { reg with pools := mapSet reg.pools sessionId config }

/-- closeSessionPool, lines 85-104 of connection.ts: a missing key is a
no-op; otherwise pool.close is invoked (logged) and the entry is deleted
whether that close resolved or threw, so the resulting state is the same
on both branches and the function itself never throws. -/
def closeSessionPool (reg : PoolRegistry) (sessionId : String) : PoolRegistry :=
  match mapGet reg.pools sessionId with
  | none => reg
  | some _ =>
    { pools := mapDelete reg.pools sessionId,
      closeLog := reg.closeLog ++ [sessionId] }

/-- closeAllSessionPools, lines 111-125: snapshot the keys, then close each
(Promise.all over closeSessionPool; each call touches only its own key so
the parallel join equals this fold). -/
def closeAllSessionPools (reg : PoolRegistry) : PoolRegistry :=
  (reg.pools.map Prod.fst).foldl closeSessionPool reg

/-! ## HTTP request paths (src/transports/http.ts) -/

/-- The /auth credential probe, lines 236-260 of http.ts.  The transient
pool id is auth-test- followed by 32 hex characters of randomness.
initializeSessionPool may throw (buildThrows); testSessionConnection
catches internally and returns a boolean (connected); on the success path
closeSessionPool runs unconditionally before the connected check, and the
catch path also runs closeSessionPool.  The returned boolean is whether
the handler proceeds past the probe (otherwise it responds 401). -/
def authCredentialProbe (reg : PoolRegistry) (testPoolId : String)
    (config : DB2iConfig) (buildThrows connected : Bool) : PoolRegistry × Bool :=
  match initializeSessionPool reg testPoolId config buildThrows with
  | .error _ => (closeSessionPool reg testPoolId, false)
  | .ok reg1 => (closeSessionPool reg1 testPoolId, connected)

/-- The transient probe pool id of line 237. -/
def testPoolIdOf (hex : String) : String := "auth-test-" ++ hex

/-- Which step of the stateful initialize path after the pool ensure
failed, lines 398-416 of http.ts. -/
inductive InitStepFailure
  | noFailure
  | serverCreate
  | sessionCreate
  deriving Repr, DecidableEq

/-- The catch block of the stateful initialize path, lines 403-416: when
createMcpServer or sessionManager.createSession throws, close the server
if it was created, and close the pool only when the session key is not the
literal global. -/
def initializeFlowCleanup (reg : PoolRegistry) (sessionKey : String)
    (failure : InitStepFailure) : PoolRegistry × Bool :=
  match failure with
  | .noFailure => (reg, false)
  | .serverCreate =>
    (if sessionKey != "global" then closeSessionPool reg sessionKey else reg, false)
  | .sessionCreate =>
    (if sessionKey != "global" then closeSessionPool reg sessionKey else reg, true)

/-- The cleanup callback registered in startHttpServer lines 548-553: on
token death the pool keyed by the token is closed. -/
def tokenCleanupCallback (reg : PoolRegistry) (token : String) : PoolRegistry :=
  closeSessionPool reg token

/-! ## Auth request validation (src/transports/http.ts validateAuthRequest)

Only the duration field carries a claim; the source rejects a provided
duration outside 1..86400 (line 80-84). -/

def validateDurationField : Option Int → Bool
  | none => true
  | some d => !(decide (d < 1) || decide (d > 86400))

/-! ## Static token compare (src/auth/authMiddleware.ts lines 93-98)

The middleware compares byte buffers: it checks the lengths first and only
when they agree calls crypto.timingSafeEqual.  timingSafeEqual is a Node
primitive outside this repository.  Modelled from the spec: a
constant-time equality on two equal-length byte buffers that examines
every byte position (an or-accumulated xor), so its operation count is the
buffer length and does not depend on the byte values.  Bytes are naturals
below 256; no bound is needed for the theorems. -/

def timingSafeEqualXor (a b : List Nat) : Nat :=
  (List.zip a b).foldl (fun acc p => acc ||| (p.1 ^^^ p.2)) 0

def timingSafeEqualModel (a b : List Nat) : Bool :=
  timingSafeEqualXor a b == 0

/-- Operation count of the modelled primitive: one xor-or per byte
position. -/
def timingSafeEqualCost (a b : List Nat) : Nat := (List.zip a b).length

/-- Lines 97-98 of authMiddleware.ts: tokensMatch. -/
def staticTokenMatches (token staticToken : List Nat) : Bool :=
  token.length == staticToken.length && timingSafeEqualModel token staticToken

/-- Operation count of the compare: the length test, plus the primitive
only when the lengths agree (the && short-circuits on the length, never on
the contents). -/
def staticTokenCompareCost (token staticToken : List Nat) : Nat :=
  if token.length == staticToken.length then 1 + timingSafeEqualCost token staticToken
  else 1

/-! ## Concrete states used in closed evaluations -/

def cfg0 : DB2iConfig :=
  { hostname := "ibmi.example", port := 446, username := "alice", password := "pw",
    database := "*LOCAL", schema := "QGPL", jdbcOptions := [] }

/-- A store holding one token whose expiresAt (5000 ms) is in the past at
observation time 10000 ms; no cleanup has been notified yet. -/
def expiredTokenState : TokenManagerState :=
  ⟨[("expired-token",
     { token := "expired-token", config := cfg0, createdAt := 0,
       expiresAt := 5000, lastUsedAt := 0 })], []⟩

/-- One idle, request-free MCP session last touched at time 0. -/
def idleSession : McpSession :=
  { id := "sid-1", authToken := "tok-1", createdAt := 0, lastAccessedAt := 0,
    activeRequests := 0, isClosing := false }

def idleSessionState : SessionManagerState := ⟨[("sid-1", idleSession)], [], []⟩

/-- A session already being closed by a concurrent closeSession call. -/
def closingSession : McpSession := { idleSession with isClosing := true }

def closingSessionState : SessionManagerState := ⟨[("sid-1", closingSession)], [], []⟩

/-- A trace that creates a session, closes it twice concurrently (the
second closeSession call hits the isClosing guard) and finishes the
close. -/
def demoSmOps : List SmOp :=
  [SmOp.create "sid-1" "tok-1" 0, SmOp.increment "sid-1" 5, SmOp.decrement "sid-1" 6,
   SmOp.closeStart "sid-1" false, SmOp.closeStart "sid-1" false, SmOp.closeFinish "sid-1"]

/-! # Theorems -/

/-! ## Association-list lemmas -/

theorem mapGet_mapSet_self {α : Type} (m : List (String × α)) (k : String) (v : α) :
    mapGet (mapSet m k v) k = some v := by
  induction m with
  | nil => simp [mapGet, mapSet]
  | cons p rest ih =>
    by_cases h : p.1 = k
    · simp [mapGet, mapSet, h]
    · simp only [mapSet, mapGet, beq_iff_eq, h, if_false, if_neg h]
      exact ih

theorem mapGet_mapSet_ne {α : Type} (m : List (String × α)) (k j : String) (v : α)
    (h : j ≠ k) : mapGet (mapSet m k v) j = mapGet m j := by
  induction m with
  | nil => simp [mapGet, mapSet, beq_iff_eq, Ne.symm h]
  | cons p rest ih =>
    by_cases hp : p.1 = k
    · simp [mapGet, mapSet, hp, beq_iff_eq, Ne.symm h]
    · simp only [mapSet, mapGet, beq_iff_eq, hp, if_false, if_neg hp]
      by_cases hj : p.1 = j
      · simp [hj]
      · simp [hj, ih]

theorem mapGet_mapDelete_self {α : Type} (m : List (String × α)) (k : String) :
    mapGet (mapDelete m k) k = none := by
  induction m with
  | nil => simp [mapGet, mapDelete]
  | cons p rest ih =>
    by_cases h : p.1 = k
    · simpa [mapDelete, h] using ih
    · simpa [mapDelete, mapGet, h] using ih

theorem mapGet_mapDelete_ne {α : Type} (m : List (String × α)) (k j : String)
    (h : j ≠ k) : mapGet (mapDelete m k) j = mapGet m j := by
  induction m with
  | nil => simp [mapGet, mapDelete]
  | cons p rest ih =>
    by_cases hj : p.1 = j
    · have hcond : p.1 ≠ k := by rw [hj]; exact h
      simp [mapDelete, List.filter_cons, bne_iff_ne, mapGet, hj, hcond, h]
    · by_cases hp : p.1 = k
      · simpa [mapDelete, mapGet, hp, hj, Ne.symm h] using ih
      · simpa [mapDelete, mapGet, hp, hj] using ih

theorem length_mapSet_le {α : Type} (m : List (String × α)) (k : String) (v : α) :
    (mapSet m k v).length ≤ m.length + 1 := by
  induction m with
  | nil => simp [mapSet]
  | cons p rest ih =>
    by_cases h : p.1 = k
    · simp [mapSet, h]
    · simp only [mapSet, beq_iff_eq, h, if_false, if_neg h, List.length_cons]
      omega

theorem length_mapSet_present {α : Type} (m : List (String × α)) (k : String) (v : α)
    (h : (mapGet m k).isSome) : (mapSet m k v).length = m.length := by
  induction m with
  | nil => simp [mapGet] at h
  | cons p rest ih =>
    by_cases hp : p.1 = k
    · simp [mapSet, hp]
    · simp only [mapGet, beq_iff_eq, hp, if_false, if_neg hp] at h
      simp only [mapSet, beq_iff_eq, hp, if_false, if_neg hp, List.length_cons]
      exact congrArg (· + 1) (ih h)

theorem length_mapDelete_le {α : Type} (m : List (String × α)) (k : String) :
    (mapDelete m k).length ≤ m.length :=
  List.length_filter_le _ m

theorem mapGet_isSome_iff_mem_keys {α : Type} (m : List (String × α)) (k : String) :
    (mapGet m k).isSome ↔ k ∈ m.map Prod.fst := by
  induction m with
  | nil => simp [mapGet]
  | cons p rest ih =>
    by_cases hp : p.1 = k
    · simp [mapGet, hp]
    · have hk : ¬ (k = p.1) := fun hc => hp hc.symm
      simp [mapGet, hp, hk, ih]

/-! ## Claim C1: expiry via validateToken and the cleanup callback -/

/-- C1: the claim states that the expired branch of
TokenManager.validateToken deletes the entry, invokes the registered
cleanup callback for the token, and returns the invalid result Token
expired, and that over every issued token the callback fires exactly once.
Evaluating the embedded source on a store holding one expired token shows
the code deletes the entry and returns Token expired but leaves the
cleanup log empty, and that no later sweep, revoke or shutdown can reach
the deleted token - its callback count stays zero, never one - while a
sweep that sees the token first does notify cleanup.  This contradicts the
claim (and the stated purpose of the callback in the source comments: to
close the associated per-token pool when tokens expire). -/
theorem validateToken_expired_skips_cleanup :
    validateToken expiredTokenState "expired-token" 10000 =
      (.invalid "Token expired", ⟨[], []⟩) ∧
    (cleanupExpiredSessions
      (validateToken expiredTokenState "expired-token" 10000).2 60000).cleanupLog = [] ∧
    (tokenManagerShutdown
      (validateToken expiredTokenState "expired-token" 10000).2).cleanupLog = [] ∧
    revokeToken (validateToken expiredTokenState "expired-token" 10000).2 "expired-token" =
      (false, ⟨[], []⟩) ∧
    (cleanupExpiredSessions expiredTokenState 10000).cleanupLog = ["expired-token"] := by
  refine ⟨?_, rfl, rfl, rfl, rfl⟩
  rfl

/-! ## Claim C9: revokeToken on an absent token -/

/-- C9: for a token not present in the store, revokeToken returns false,
leaves the state (sessions and cleanup log) unchanged, and does not invoke
the cleanup callback; when the token is present the entry is deleted and
the callback is invoked exactly then, so the callback fires only on an
actual deletion. -/
theorem revokeToken_absent_noop (st : TokenManagerState) (token : String) :
    (mapGet st.sessions token = none → revokeToken st token = (false, st)) ∧
    (∀ s, mapGet st.sessions token = some s →
      (revokeToken st token).1 = true ∧
      (revokeToken st token).2.sessions = mapDelete st.sessions token ∧
      (revokeToken st token).2.cleanupLog = st.cleanupLog ++ [token]) := by
  constructor
  · intro h
    simp [revokeToken, h]
  · intro s h
    simp [revokeToken, h]

/-- Witness for C9 at concrete stores: an absent token is a strict no-op,
a present token is deleted with one callback notification. -/
theorem revokeToken_absent_noop_witness :
    revokeToken TokenManagerState.init "missing" = (false, TokenManagerState.init) ∧
    (revokeToken expiredTokenState "expired-token").1 = true ∧
    (revokeToken expiredTokenState "expired-token").2.cleanupLog = ["expired-token"] := by
  refine ⟨?_, ?_, ?_⟩
  · exact (revokeToken_absent_noop TokenManagerState.init "missing").1 rfl
  · exact ((revokeToken_absent_noop expiredTokenState "expired-token").2 _ rfl).1
  · exact ((revokeToken_absent_noop expiredTokenState "expired-token").2 _ rfl).2.2

/-! ## Claim C10: the /auth credential probe never leaks its pool -/

theorem closeSessionPool_removes (reg : PoolRegistry) (key : String) :
    mapGet (closeSessionPool reg key).pools key = none := by
  unfold closeSessionPool
  cases h : mapGet reg.pools key with
  | none => simpa using h
  | some c => simpa using mapGet_mapDelete_self reg.pools key

/-- C10: on every outcome of the /auth credential probe - pool build
throws, probe fails, probe succeeds, pool close throws (both close
branches delete the entry, so they are one state here) - the transient
probe pool is absent from the session-pool registry when the handler
responds; and closeSessionPool removes the registry entry even when the
underlying pool close throws. -/
theorem authProbe_transient_pool_removed :
    (∀ (reg : PoolRegistry) (hex : String) (config : DB2iConfig) (bt conn : Bool),
      mapGet (authCredentialProbe reg (testPoolIdOf hex) config bt conn).1.pools
        (testPoolIdOf hex) = none) ∧
    (∀ (reg : PoolRegistry) (key : String),
      mapGet (closeSessionPool reg key).pools key = none) := by
  constructor
  · intro reg hex config bt conn
    unfold authCredentialProbe
    cases h : initializeSessionPool reg (testPoolIdOf hex) config bt with
    | error e => exact closeSessionPool_removes reg (testPoolIdOf hex)
    | ok reg1 => exact closeSessionPool_removes reg1 (testPoolIdOf hex)
  · exact closeSessionPool_removes

/-! ## Claim C7: the idle sweep selects exactly the idle stale sessions -/

/-- C7: on a sweep tick at time now, cleanupStaleSessions selects for
closing exactly the entries with isClosing false, activeRequests zero and
now minus lastAccessedAt above the stale timeout; in particular no
selected session has activeRequests above zero, so the sweeper never
closes a session with an in-flight request. -/
theorem staleSweep_selection (st : SessionManagerState) (now timeout : Nat) :
    (∀ p : String × McpSession,
      p ∈ staleEntries st now timeout ↔
        (p ∈ st.sessions ∧ p.2.isClosing = false ∧ p.2.activeRequests = 0 ∧
         timeout < now - p.2.lastAccessedAt)) ∧
    (∀ p : String × McpSession, p ∈ staleEntries st now timeout →
      p.2.activeRequests = 0) := by
  have hmem : ∀ p : String × McpSession,
      p ∈ staleEntries st now timeout ↔
        (p ∈ st.sessions ∧ p.2.isClosing = false ∧ p.2.activeRequests = 0 ∧
         timeout < now - p.2.lastAccessedAt) := by
    intro p
    simp only [staleEntries, List.mem_filter, Bool.and_eq_true, Bool.not_eq_true',
      beq_iff_eq, decide_eq_true_eq]
    tauto
  exact ⟨hmem, fun p hp => (((hmem p).mp hp).2.2).1⟩

/-- Witness for C7: a session idle for longer than the timeout with no
active request is selected, and the theorem reports its activeRequests as
zero. -/
theorem staleSweep_selection_witness :
    (("sid-1", idleSession) : String × McpSession).2.activeRequests = 0 :=
  (staleSweep_selection idleSessionState 2000000 1800000).2 ("sid-1", idleSession)
    (by decide)

/-! ## Claim C4: the createSession expiry formula -/

/-- C4 counterexample: the claim states that for every call,
expiresAt = now + min(ttlSeconds or default, 86400) seconds and that the
effective duration is never below one second, regardless of the ttlSeconds
value passed.  The embedded source applies no clamping: at ttlSeconds =
172800 (two days) it returns expiresIn = 172800 and expiresAt = 172800000
ms, not now + min(172800, 86400) * 1000 = 86400000; and at ttlSeconds = 0
it returns an effective duration of 0 seconds, below one second. -/
theorem createSession_no_clamp_counterexample :
    ((createSession ⟨100, 3600⟩ TokenManagerState.init cfg0 (some 172800) 0
        "tok-a").toOption.map (fun p => (p.1.expiresIn, p.1.expiresAt)))
      = some (172800, 172800000) ∧
    ¬ ((172800000 : Int) = 0 + (min 172800 86400) * 1000) ∧
    ((createSession ⟨100, 3600⟩ TokenManagerState.init cfg0 (some 0) 0
        "tok-b").toOption.map (fun p => p.1.expiresIn)) = some 0 ∧
    ¬ ((1 : Int) ≤ 0) := by
  refine ⟨rfl, by decide, rfl, by decide⟩

/-- C4 amended: createSession applies no clamping of its own; it sets
expiresIn = ttlSeconds (or the default tokenExpiry) and expiresAt = now +
expiresIn * 1000 ms.  The 1..86400 bound is enforced upstream by
validateAuthRequest, which rejects (HTTP 400) any provided duration
outside that range rather than clamping it; every duration it admits
satisfies 1 <= d and min d 86400 = d, so on the /auth path the claimed
formula coincides with the code. -/
theorem createSession_expiry_amended (lim : HttpLimits) (st : TokenManagerState)
    (config : DB2iConfig) (d : Option Int) (now : Int) (tok : String)
    (h : st.sessions.length < lim.maxSessions) :
    ((createSession lim st config d now tok).toOption.map
        (fun p => (p.1.expiresIn, p.1.expiresAt)))
      = some (d.getD lim.tokenExpiry, now + (d.getD lim.tokenExpiry) * 1000) ∧
    (∀ dv : Int, validateDurationField (some dv) = true →
      1 ≤ dv ∧ min dv 86400 = dv) := by
  constructor
  · have hc : ¬ (st.sessions.length ≥ lim.maxSessions) := Nat.not_le.mpr h
    unfold createSession
    rw [if_neg hc]
    rfl
  · intro dv hdv
    simp only [validateDurationField, Bool.not_eq_true', Bool.or_eq_false_iff,
      decide_eq_false_iff_not, not_lt] at hdv
    exact ⟨hdv.1, min_eq_left hdv.2⟩

/-- Witness for C4 amended: a validated duration of 600 seconds yields
expiresIn 600 and expiresAt 600000 ms from time 0, and 600 is admitted by
the duration validation with min 600 86400 = 600. -/
theorem createSession_expiry_amended_witness :
    ((createSession ⟨100, 3600⟩ TokenManagerState.init cfg0 (some 600) 0
        "tok-c").toOption.map (fun p => (p.1.expiresIn, p.1.expiresAt)))
      = some (600, 600000) ∧
    (1 ≤ (600 : Int) ∧ min (600 : Int) 86400 = 600) := by
  have h := createSession_expiry_amended ⟨100, 3600⟩ TokenManagerState.init cfg0
    (some 600) 0 "tok-c" (by decide)
  exact ⟨h.1, h.2 600 (by decide)⟩

/-! ## Claim C8: the static token compare is constant time -/

theorem natLorEqZero (a b : Nat) : a ||| b = 0 ↔ a = 0 ∧ b = 0 := by
  constructor
  · intro h
    have ht : ∀ i, a.testBit i = false ∧ b.testBit i = false := by
      intro i
      have hc := congrArg (fun n => Nat.testBit n i) h
      simpa using hc
    constructor
    · exact Nat.eq_of_testBit_eq (fun i => by simp [(ht i).1])
    · exact Nat.eq_of_testBit_eq (fun i => by simp [(ht i).2])
  · rintro ⟨rfl, rfl⟩
    rfl

theorem foldl_xor_lor_eq_zero (l : List (Nat × Nat)) (acc : Nat) :
    (l.foldl (fun a p => a ||| (p.1 ^^^ p.2)) acc = 0) ↔
      (acc = 0 ∧ ∀ p ∈ l, p.1 = p.2) := by
  induction l generalizing acc with
  | nil => simp
  | cons y t ih =>
    simp only [List.foldl_cons, ih, natLorEqZero, Nat.xor_eq_zero, List.mem_cons]
    constructor
    · rintro ⟨⟨h1, h2⟩, h3⟩
      refine ⟨h1, ?_⟩
      rintro p (rfl | hp)
      · exact h2
      · exact h3 p hp
    · rintro ⟨h1, h2⟩
      exact ⟨⟨h1, h2 y (Or.inl rfl)⟩, fun p hp => h2 p (Or.inr hp)⟩

theorem zip_pointwise_eq (a : List Nat) : ∀ b : List Nat, a.length = b.length →
    ((∀ p ∈ List.zip a b, p.1 = p.2) ↔ a = b) := by
  induction a with
  | nil =>
    intro b hl
    cases b with
    | nil => simp
    | cons y t => simp at hl
  | cons x s ih =>
    intro b hl
    cases b with
    | nil => simp at hl
    | cons y t =>
      have hlt : s.length = t.length := by simpa using hl
      constructor
      · intro h
        have hxy : x = y := h (x, y) (by simp [List.zip_cons_cons])
        have hst : s = t := (ih t hlt).mp (fun p hp => h p (by simp [List.zip_cons_cons, hp]))
        rw [hxy, hst]
      · intro h p hp
        injection h with h1 h2
        simp only [List.zip_cons_cons, List.mem_cons] at hp
        rcases hp with rfl | hp
        · exact h1
        · exact (ih t hlt).mpr h2 p hp

/-- C8: the compare of lines 97-98 of authMiddleware.ts is a correct
equality check, its operation count is a function of the two buffer
lengths alone - so the running time is independent of the position of the
first differing byte - and for buffers of unequal length it returns false
after the length test only, never branching on the contents. -/
theorem staticToken_constant_time (a b c d : List Nat) :
    (staticTokenMatches a b = true ↔ a = b) ∧
    (a.length = c.length → b.length = d.length →
      staticTokenCompareCost a b = staticTokenCompareCost c d) ∧
    (a.length ≠ b.length →
      staticTokenMatches a b = false ∧ staticTokenCompareCost a b = 1) := by
  refine ⟨?_, ?_, ?_⟩
  · constructor
    · intro h
      simp only [staticTokenMatches, Bool.and_eq_true, beq_iff_eq] at h
      obtain ⟨hl, hm⟩ := h
      have hx : timingSafeEqualXor a b = 0 := by
        simpa [timingSafeEqualModel] using hm
      have hall := ((foldl_xor_lor_eq_zero (List.zip a b) 0).mp
        (by simpa [timingSafeEqualXor] using hx)).2
      exact (zip_pointwise_eq a b hl).mp hall
    · rintro rfl
      have hall : ∀ p ∈ List.zip a a, p.1 = p.2 :=
        (zip_pointwise_eq a a rfl).mpr rfl
      simp only [staticTokenMatches, Bool.and_eq_true, beq_iff_eq]
      refine ⟨trivial, ?_⟩
      simp only [timingSafeEqualModel, beq_iff_eq, timingSafeEqualXor]
      exact (foldl_xor_lor_eq_zero (List.zip a a) 0).mpr ⟨rfl, hall⟩
  · intro hac hbd
    simp [staticTokenCompareCost, timingSafeEqualCost, List.length_zip, hac, hbd]
  · intro hne
    have hb : (a.length == b.length) = false := by simpa using hne
    simp [staticTokenMatches, staticTokenCompareCost, hb]

/-- Witness for C8 at concrete byte buffers: equal buffers match, two
pairs of equal-length buffers that differ at different byte positions have
the same cost, and an unequal-length pair yields false at cost one. -/
theorem staticToken_constant_time_witness :
    (staticTokenMatches [1, 2, 3] [1, 2, 3] = true ↔ ([1, 2, 3] : List Nat) = [1, 2, 3]) ∧
    staticTokenCompareCost [9, 2, 3] [1, 2, 3] = staticTokenCompareCost [1, 2, 9] [1, 2, 3] ∧
    (staticTokenMatches [1, 2] [1, 2, 3] = false ∧ staticTokenCompareCost [1, 2] [1, 2, 3] = 1) := by
  refine ⟨(staticToken_constant_time [1, 2, 3] [1, 2, 3] [] []).1, ?_, ?_⟩
  · exact (staticToken_constant_time [9, 2, 3] [1, 2, 3] [1, 2, 9] [1, 2, 3]).2.1 rfl rfl
  · exact (staticToken_constant_time [1, 2] [1, 2, 3] [] []).2.2 (by decide)

/-! ## Claim C2: the session-cap invariant of the token store -/

theorem foldl_mapDelete_length_le {α : Type} (l : List String)
    (m : List (String × α)) :
    (l.foldl (fun acc k => mapDelete acc k) m).length ≤ m.length := by
  induction l generalizing m with
  | nil => simp
  | cons k t ih =>
    calc (t.foldl (fun acc k => mapDelete acc k) (mapDelete m k)).length
        ≤ (mapDelete m k).length := ih (mapDelete m k)
      _ ≤ m.length := length_mapDelete_le m k

theorem tokenStep_length_le (lim : HttpLimits) (st : TokenManagerState) (op : TokenOp)
    (h : st.sessions.length ≤ lim.maxSessions) :
    (tokenStep lim st op).sessions.length ≤ lim.maxSessions := by
  cases op with
  | create config d now tok =>
    simp only [tokenStep, createSession]
    by_cases hc : st.sessions.length ≥ lim.maxSessions
    · rw [if_pos hc]
      exact h
    · rw [if_neg hc]
      have hlt : st.sessions.length < lim.maxSessions := Nat.lt_of_not_le hc
      calc (mapSet st.sessions tok _).length
          ≤ st.sessions.length + 1 := length_mapSet_le _ _ _
        _ ≤ lim.maxSessions := hlt
  | validate tok now =>
    simp only [tokenStep, validateToken]
    split
    · exact h
    · split
      · exact h
      · next session heq =>
        split
        · exact le_trans (length_mapDelete_le _ _) h
        · have hp : (mapGet st.sessions tok).isSome := by rw [heq]; rfl
          simpa [length_mapSet_present _ _ _ hp] using h
  | revoke tok =>
    simp only [tokenStep, revokeToken]
    split
    · exact h
    · exact le_trans (length_mapDelete_le _ _) h
  | cleanupExpired now =>
    simp only [tokenStep, cleanupExpiredSessions]
    calc _ ≤ st.sessions.length := foldl_mapDelete_length_le _ _
      _ ≤ lim.maxSessions := h
  | shutdown =>
    simp [tokenStep, tokenManagerShutdown]

theorem runTokenOps_length_le (lim : HttpLimits) (st : TokenManagerState)
    (h : st.sessions.length ≤ lim.maxSessions) (ops : List TokenOp) :
    (runTokenOps lim st ops).sessions.length ≤ lim.maxSessions := by
  induction ops generalizing st with
  | nil => simpa [runTokenOps] using h
  | cons op t ih =>
    simpa [runTokenOps] using ih (tokenStep lim st op) (tokenStep_length_le lim st op h)

/-- C2: over every sequence of createSession, validateToken, revokeToken,
expiry-sweep and shutdown operations from the empty store, the number of
stored token sessions never exceeds maxSessions; and whenever createSession
runs with the store already at or above maxSessions it throws an error
whose text starts with Maximum concurrent sessions.  Every operation of
the source is synchronous from its size check to its map mutation - no
await intervenes - so each is a single atomic step of this trace
semantics, which is exactly the atomicity the claim requires of the check
and the insertion. -/
theorem tokenManager_cap_invariant (lim : HttpLimits) :
    (∀ ops : List TokenOp,
      (runTokenOps lim TokenManagerState.init ops).sessions.length ≤ lim.maxSessions) ∧
    (∀ (st : TokenManagerState) (config : DB2iConfig) (d : Option Int) (now : Int)
        (tok : String), lim.maxSessions ≤ st.sessions.length →
      createSession lim st config d now tok = .error (maxSessionsMessage lim.maxSessions) ∧
      ∃ rest, maxSessionsMessage lim.maxSessions = "Maximum concurrent sessions" ++ rest) := by
  constructor
  · exact runTokenOps_length_le lim TokenManagerState.init (Nat.zero_le _)
  · intro st config d now tok hfull
    constructor
    · unfold createSession
      rw [if_pos hfull]
    · refine ⟨" (" ++ toString lim.maxSessions ++ ") reached. Please try again later.", ?_⟩
      show "Maximum concurrent sessions (" ++ toString lim.maxSessions ++
        ") reached. Please try again later." = _
      rw [show ("Maximum concurrent sessions (" : String) =
        "Maximum concurrent sessions" ++ " (" from rfl]
      rw [String.append_assoc, String.append_assoc, String.append_assoc]

/-- Witness for C2: a two-element trace at cap two stays within the cap,
and a createSession against a full store returns the cap error. -/
theorem tokenManager_cap_invariant_witness :
    (runTokenOps ⟨2, 3600⟩ TokenManagerState.init
      [TokenOp.create cfg0 none 0 "t1", TokenOp.create cfg0 none 0 "t2",
       TokenOp.create cfg0 none 0 "t3"]).sessions.length ≤ 2 ∧
    createSession ⟨0, 3600⟩ TokenManagerState.init cfg0 none 0 "t4" =
      .error (maxSessionsMessage 0) := by
  constructor
  · exact (tokenManager_cap_invariant ⟨2, 3600⟩).1 _
  · exact ((tokenManager_cap_invariant ⟨0, 3600⟩).2 TokenManagerState.init cfg0 none 0 "t4"
      (Nat.zero_le _)).1

/-! ## Claim C5: the fixed-window check -/

/-- C5: with the limiter enabled, checkLimit operates on the effective
window - a fresh window starting at now with count 0 when the stored
window is absent or now is at or past windowStart + windowMs, the stored
window otherwise.  When its count is below the limit the count is
incremented (also in the stored state) and the call returns allowed with
remaining = limit - count for the incremented count; otherwise it returns
not allowed, remaining 0 and retryAfterSeconds equal to the ceiling of
(resetTime - now) / 1000, where resetTime = windowStart + windowMs of the
effective window on both branches. -/
theorem checkLimit_fixed_window_spec (cfg : RateLimitConfig) (st : RateLimiterState)
    (key : String) (now : Nat) (hen : cfg.enabled = true) :
    ((effectiveWindow cfg st key now).count < cfg.maxRequests →
      (checkLimit cfg st key now).1.allowed = true ∧
      (checkLimit cfg st key now).1.remaining =
        cfg.maxRequests - ((effectiveWindow cfg st key now).count + 1) ∧
      mapGet (checkLimit cfg st key now).2.windows key =
        some ⟨(effectiveWindow cfg st key now).count + 1,
              (effectiveWindow cfg st key now).windowStart⟩) ∧
    (cfg.maxRequests ≤ (effectiveWindow cfg st key now).count →
      (checkLimit cfg st key now).1.allowed = false ∧
      (checkLimit cfg st key now).1.remaining = 0 ∧
      (checkLimit cfg st key now).1.retryAfterSeconds =
        ((effectiveWindow cfg st key now).windowStart + cfg.windowMs - now + 999) / 1000) ∧
    (checkLimit cfg st key now).1.resetTime =
      (effectiveWindow cfg st key now).windowStart + cfg.windowMs := by
  have hnot : (!cfg.enabled) = false := by rw [hen]; rfl
  by_cases hcap : (effectiveWindow cfg st key now).count ≥ cfg.maxRequests
  · refine ⟨fun hlt => absurd hcap (Nat.not_le.mpr hlt), fun _ => ?_, ?_⟩
    · simp [checkLimit, hnot, if_pos hcap]
    · simp [checkLimit, hnot, if_pos hcap]
  · refine ⟨fun _ => ?_, fun hge => absurd hge hcap, ?_⟩
    · refine ⟨?_, ?_, ?_⟩
      · simp [checkLimit, hnot, if_neg hcap]
      · simp [checkLimit, hnot, if_neg hcap]
      · simp only [checkLimit, hnot, Bool.false_eq_true, if_false, if_neg hcap]
        exact mapGet_mapSet_self _ _ _
    · simp [checkLimit, hnot, if_neg hcap]

/-- Witness for C5: from the empty limiter state a first check on a fresh
key is allowed with four of five requests remaining and a stored count of
one, and against a full stored window the check is refused with a 59
second retry. -/
theorem checkLimit_fixed_window_spec_witness :
    ((checkLimit ⟨60000, 5, true⟩ ⟨[]⟩ "k" 0).1.allowed = true ∧
     (checkLimit ⟨60000, 5, true⟩ ⟨[]⟩ "k" 0).1.remaining = 4 ∧
     mapGet (checkLimit ⟨60000, 5, true⟩ ⟨[]⟩ "k" 0).2.windows "k" = some ⟨1, 0⟩) ∧
    ((checkLimit ⟨60000, 5, true⟩ ⟨[("k", ⟨5, 0⟩)]⟩ "k" 1000).1.allowed = false ∧
     (checkLimit ⟨60000, 5, true⟩ ⟨[("k", ⟨5, 0⟩)]⟩ "k" 1000).1.retryAfterSeconds = 59) := by
  constructor
  · have h := (checkLimit_fixed_window_spec ⟨60000, 5, true⟩ ⟨[]⟩ "k" 0 rfl).1 (by decide)
    exact ⟨h.1, h.2.1, h.2.2⟩
  · have h := (checkLimit_fixed_window_spec ⟨60000, 5, true⟩ ⟨[("k", ⟨5, 0⟩)]⟩ "k" 1000
      rfl).2.1 (by decide)
    exact ⟨h.1, h.2.2⟩

/-! ## Claim C6: closeSession runs the closes at most once per session -/

theorem smInv_update_preserving (st : SessionManagerState) (id : String)
    (s s' : McpSession) (hm : mapGet st.sessions id = some s)
    (hcl : s'.isClosing = s.isClosing) (hinv : smInv st) :
    smInv { st with sessions := mapSet st.sessions id s' } := by
  intro j
  refine ⟨(hinv j).1, (hinv j).2.1, ?_⟩
  intro hj t ht
  have ht' : mapGet (mapSet st.sessions id s') j = some t := ht
  by_cases hji : j = id
  · subst hji
    rw [mapGet_mapSet_self] at ht'
    injection ht' with hts
    rw [← hts, hcl]
    exact (hinv j).2.2 hj s hm
  · rw [mapGet_mapSet_ne _ _ _ _ hji] at ht'
    exact (hinv j).2.2 hj t ht'

theorem smInv_create (st : SessionManagerState) (id tok : String) (now : Nat)
    (hinv : smInv st) (hid : id ∉ st.transportCloseLog) :
    smInv (smCreateSession st id tok now) := by
  intro j
  refine ⟨(hinv j).1, (hinv j).2.1, ?_⟩
  intro hj t ht
  have ht' : mapGet (mapSet st.sessions id
    { id := id, authToken := tok, createdAt := now, lastAccessedAt := now,
      activeRequests := 0, isClosing := false }) j = some t := ht
  by_cases hji : j = id
  · exact absurd (hji ▸ hj) hid
  · rw [mapGet_mapSet_ne _ _ _ _ hji] at ht'
    exact (hinv j).2.2 hj t ht'

theorem smInv_get (st : SessionManagerState) (id : String) (now : Nat)
    (hinv : smInv st) : smInv (smGetSession st id now).2 := by
  unfold smGetSession
  split
  · next s hm =>
    split
    · exact hinv
    · exact smInv_update_preserving st id s _ hm rfl hinv
  · exact hinv

theorem smInv_inc (st : SessionManagerState) (id : String) (now : Nat)
    (hinv : smInv st) : smInv (smIncrement st id now) := by
  unfold smIncrement
  split
  · next s hm => exact smInv_update_preserving st id s _ hm rfl hinv
  · exact hinv

theorem smInv_dec (st : SessionManagerState) (id : String) (now : Nat)
    (hinv : smInv st) : smInv (smDecrement st id now) := by
  unfold smDecrement
  split
  · next s hm =>
    split
    · exact smInv_update_preserving st id s _ hm rfl hinv
    · exact hinv
  · exact hinv

theorem smInv_closeStart (st : SessionManagerState) (id : String) (th : Bool)
    (hinv : smInv st) : smInv (closeSessionStart st id th).2 := by
  unfold closeSessionStart
  split
  · exact hinv
  · next s hm =>
    split
    · exact hinv
    · next hncl =>
      have hid : id ∉ st.transportCloseLog := by
        intro hmem
        exact hncl ((hinv id).2.2 hmem s hm)
      have hcnt : st.transportCloseLog.count id = 0 := List.count_eq_zero.mpr hid
      intro j
      refine ⟨?_, ?_, ?_⟩
      · show (st.transportCloseLog ++ [id]).count j ≤ 1
        rw [List.count_append]
        by_cases hji : j = id
        · subst hji
          simp [hcnt]
        · have : ([id].count j) = 0 := by
            simp [List.count_cons, Ne.symm hji]
          rw [this]
          simpa using (hinv j).1
      · show (if th then st.serverCloseLog else st.serverCloseLog ++ [id]).count j ≤
          (st.transportCloseLog ++ [id]).count j
        rw [List.count_append]
        have hsc : st.serverCloseLog.count j ≤ st.transportCloseLog.count j := (hinv j).2.1
        cases th with
        | true =>
          simp only [if_pos trivial, if_true]
          omega
        | false =>
          simp only [if_false, Bool.false_eq_true]
          rw [List.count_append]
          omega
      · intro hj t ht
        have ht' : mapGet (mapSet st.sessions id { s with isClosing := true }) j
            = some t := ht
        by_cases hji : j = id
        · subst hji
          rw [mapGet_mapSet_self] at ht'
          injection ht' with hts
          rw [← hts]
        · rw [mapGet_mapSet_ne _ _ _ _ hji] at ht'
          have hj' : j ∈ st.transportCloseLog := by
            rcases List.mem_append.mp hj with hx | hx
            · exact hx
            · exact absurd (List.mem_singleton.mp hx) hji
          exact (hinv j).2.2 hj' t ht'

theorem smInv_closeFinish (st : SessionManagerState) (id : String)
    (hinv : smInv st) : smInv (closeSessionFinish st id) := by
  unfold closeSessionFinish
  split
  · next s hm =>
    split
    · intro j
      refine ⟨(hinv j).1, (hinv j).2.1, ?_⟩
      intro hj t ht
      have ht' : mapGet (mapDelete st.sessions id) j = some t := ht
      by_cases hji : j = id
      · subst hji
        rw [mapGet_mapDelete_self] at ht'
        exact Option.noConfusion ht'
      · rw [mapGet_mapDelete_ne _ _ _ hji] at ht'
        exact (hinv j).2.2 hj t ht'
    · exact hinv
  · exact hinv

theorem smInv_init : smInv SessionManagerState.init := by
  intro j
  refine ⟨?_, ?_, ?_⟩
  · simp [SessionManagerState.init]
  · simp [SessionManagerState.init]
  · intro hj
    simp [SessionManagerState.init] at hj

theorem runSmOps_inv (ops : List SmOp) : ∀ st : SessionManagerState,
    smFresh st ops = true → smInv st → smInv (runSmOps st ops) := by
  induction ops with
  | nil =>
    intro st _ h
    exact h
  | cons op t ih =>
    intro st hf hinv
    simp only [smFresh, Bool.and_eq_true] at hf
    have hstep : smInv (smStep st op) := by
      cases op with
      | create id tok now =>
        have hc := hf.1
        simp only [Bool.and_eq_true, Bool.not_eq_true', decide_eq_false_iff_not] at hc
        exact smInv_create st id tok now hinv hc.2
      | get id now => exact smInv_get st id now hinv
      | increment id now => exact smInv_inc st id now hinv
      | decrement id now => exact smInv_dec st id now hinv
      | closeStart id th => exact smInv_closeStart st id th hinv
      | closeFinish id => exact smInv_closeFinish st id hinv
    simpa [runSmOps] using ih (smStep st op) hf.2 hstep

/-- C6: closeSession returns false and leaves the state unchanged when the
session is absent or already has isClosing set; otherwise the single entry
that passes the guard flips isClosing before transport.close and
server.close are invoked, and the finishing half deletes the entry.
Consequently, over every admissible interleaving of session-manager
operations from the empty state - any mix of create, get, request
accounting and the two halves of concurrent closeSession calls, which is
how closeSessionsByToken, idle eviction and shutdown all close sessions -
transport.close and server.close each run at most once per session id. -/
theorem closeSession_guard_and_at_most_once :
    (∀ (st : SessionManagerState) (id : String) (th : Bool),
      mapGet st.sessions id = none → closeSessionStart st id th = (false, st)) ∧
    (∀ (st : SessionManagerState) (id : String) (th : Bool) (s : McpSession),
      mapGet st.sessions id = some s → s.isClosing = true →
      closeSessionStart st id th = (false, st)) ∧
    (∀ (st : SessionManagerState) (id : String) (s : McpSession),
      mapGet st.sessions id = some s → s.isClosing = true →
      mapGet (closeSessionFinish st id).sessions id = none) ∧
    (∀ ops : List SmOp, smFresh SessionManagerState.init ops = true →
      ∀ id : String,
        (runSmOps SessionManagerState.init ops).transportCloseLog.count id ≤ 1 ∧
        (runSmOps SessionManagerState.init ops).serverCloseLog.count id ≤ 1) := by
  refine ⟨?_, ?_, ?_, ?_⟩
  · intro st id th h
    simp [closeSessionStart, h]
  · intro st id th s hm hcl
    simp [closeSessionStart, hm, hcl]
  · intro st id s hm hcl
    simp only [closeSessionFinish, hm, hcl, if_true]
    exact mapGet_mapDelete_self st.sessions id
  · intro ops hf id
    have hinv := runSmOps_inv ops SessionManagerState.init hf smInv_init id
    exact ⟨hinv.1, le_trans hinv.2.1 hinv.1⟩

/-- Witness for C6: the guard refuses an absent id and an already-closing
session, finishing a close deletes the entry, and a trace with two
concurrent closes of the same session logs each close invocation once. -/
theorem closeSession_guard_and_at_most_once_witness :
    closeSessionStart SessionManagerState.init "sid-9" false =
      (false, SessionManagerState.init) ∧
    closeSessionStart closingSessionState "sid-1" false = (false, closingSessionState) ∧
    mapGet (closeSessionFinish closingSessionState "sid-1").sessions "sid-1" = none ∧
    ((runSmOps SessionManagerState.init demoSmOps).transportCloseLog.count "sid-1" ≤ 1 ∧
     (runSmOps SessionManagerState.init demoSmOps).serverCloseLog.count "sid-1" ≤ 1) := by
  refine ⟨?_, ?_, ?_, ?_⟩
  · exact closeSession_guard_and_at_most_once.1 SessionManagerState.init "sid-9" false rfl
  · exact closeSession_guard_and_at_most_once.2.1 closingSessionState "sid-1" false
      closingSession rfl rfl
  · exact closeSession_guard_and_at_most_once.2.2.1 closingSessionState "sid-1"
      closingSession rfl rfl
  · exact closeSession_guard_and_at_most_once.2.2.2 demoSmOps (by decide) "sid-1"

/-! ## Claim C3: the global pool survives initialize failures -/

theorem closeSessionPool_closeLog_count_ne (reg : PoolRegistry) (key j : String)
    (h : j ≠ key) :
    (closeSessionPool reg key).closeLog.count j = reg.closeLog.count j := by
  unfold closeSessionPool
  split
  · rfl
  · show (reg.closeLog ++ [key]).count j = reg.closeLog.count j
    rw [List.count_append]
    have : ([key].count j) = 0 := by
      simp [List.count_cons, Ne.symm h]
    omega

theorem testPoolIdOf_ne_global (hex : String) : testPoolIdOf hex ≠ "global" := by
  intro h
  have hl := congrArg String.length h
  rw [testPoolIdOf, String.length_append] at hl
  simp only [show ("auth-test-" : String).length = 10 from rfl,
    show ("global" : String).length = 6 from rfl] at hl
  omega

theorem length43_ne_global (token : String) (h : token.length = 43) :
    token ≠ "global" := by
  intro he
  rw [he] at h
  exact absurd h (by decide)

theorem foldl_closeSessionPool_closeLog (l : List String) : ∀ reg : PoolRegistry,
    l.Nodup →
    (l.foldl closeSessionPool reg).closeLog =
      reg.closeLog ++ l.filter (fun k => (mapGet reg.pools k).isSome) := by
  induction l with
  | nil =>
    intro reg _
    simp
  | cons k t ih =>
    intro reg hnd
    have hndt : t.Nodup := (List.nodup_cons.mp hnd).2
    have hknot : k ∉ t := (List.nodup_cons.mp hnd).1
    simp only [List.foldl_cons]
    cases hm : mapGet reg.pools k with
    | none =>
      have hreg : closeSessionPool reg k = reg := by
        unfold closeSessionPool
        rw [hm]
      rw [hreg, ih reg hndt]
      have hpk : ((mapGet reg.pools k).isSome : Bool) = false := by
        rw [hm]; rfl
      simp [List.filter_cons, hpk]
    | some c =>
      have hreg : closeSessionPool reg k =
          ⟨mapDelete reg.pools k, reg.closeLog ++ [k]⟩ := by
        unfold closeSessionPool
        rw [hm]
      rw [hreg, ih _ hndt]
      have hfe : t.filter (fun j =>
            (mapGet (mapDelete reg.pools k) j).isSome) =
          t.filter (fun j => (mapGet reg.pools j).isSome) := by
        refine List.filter_congr ?_
        intro j hj
        have hjk : j ≠ k := fun hc => hknot (hc ▸ hj)
        rw [mapGet_mapDelete_ne _ _ _ hjk]
      have hpk : ((mapGet reg.pools k).isSome : Bool) = true := by
        rw [hm]; rfl
      simp only [hfe, List.filter_cons, hpk, if_true]
      simp

/-- C3: on the stateful initialize path, when a step after the pool ensure
fails the catch block closes the pool exactly when the pool key is not the
literal global (and closes the created server exactly when the failure
came after its creation); the cleanup leaves a global-keyed registry
untouched.  No per-request or per-session cleanup path - the initialize
catch block, the /auth credential probe, or the token cleanup callback
(whose keys are 43-character minted tokens) - ever invokes a close of the
global pool, while shutdown, via closeAllSessionPools over the registry
with its distinct keys, closes a present global pool exactly once. -/
theorem globalPool_preserved_on_init_failure :
    (∀ (reg : PoolRegistry) (key : String) (f : InitStepFailure),
      f ≠ InitStepFailure.noFailure → key ≠ "global" →
      (initializeFlowCleanup reg key f).1 = closeSessionPool reg key) ∧
    (∀ (reg : PoolRegistry) (f : InitStepFailure),
      (initializeFlowCleanup reg "global" f).1 = reg) ∧
    (∀ (reg : PoolRegistry) (key : String),
      (initializeFlowCleanup reg key InitStepFailure.sessionCreate).2 = true ∧
      (initializeFlowCleanup reg key InitStepFailure.serverCreate).2 = false) ∧
    (∀ (reg : PoolRegistry) (key : String) (f : InitStepFailure),
      (initializeFlowCleanup reg key f).1.closeLog.count "global" =
        reg.closeLog.count "global") ∧
    (∀ (reg : PoolRegistry) (hex : String) (config : DB2iConfig) (bt conn : Bool),
      (authCredentialProbe reg (testPoolIdOf hex) config bt conn).1.closeLog.count
        "global" = reg.closeLog.count "global") ∧
    (∀ (reg : PoolRegistry) (token : String), token.length = 43 →
      (tokenCleanupCallback reg token).closeLog.count "global" =
        reg.closeLog.count "global") ∧
    (∀ reg : PoolRegistry, (reg.pools.map Prod.fst).Nodup →
      (mapGet reg.pools "global").isSome →
      (closeAllSessionPools reg).closeLog.count "global" =
        reg.closeLog.count "global" + 1) := by
  have hclose : ∀ (reg : PoolRegistry) (key : String) (f : InitStepFailure),
      (initializeFlowCleanup reg key f).1.closeLog.count "global" =
        reg.closeLog.count "global" := by
    intro reg key f
    by_cases hkey : key = "global"
    · subst hkey
      cases f <;> simp [initializeFlowCleanup]
    · have hne : (key != "global") = true := bne_iff_ne.mpr hkey
      cases f <;>
        simp [initializeFlowCleanup, hne,
          closeSessionPool_closeLog_count_ne reg key "global" (Ne.symm hkey)]
  refine ⟨?_, ?_, ?_, hclose, ?_, ?_, ?_⟩
  · intro reg key f hf hkey
    have hne : (key != "global") = true := bne_iff_ne.mpr hkey
    cases f with
    | noFailure => exact absurd rfl hf
    | serverCreate => simp [initializeFlowCleanup, hne]
    | sessionCreate => simp [initializeFlowCleanup, hne]
  · intro reg f
    cases f <;> simp [initializeFlowCleanup]
  · intro reg key
    have hne : (key != "global") = false ∨ (key != "global") = true := by
      cases key != "global" with
      | true => exact Or.inr rfl
      | false => exact Or.inl rfl
    rcases hne with hne | hne <;> exact ⟨by simp [initializeFlowCleanup, hne], by
      simp [initializeFlowCleanup, hne]⟩
  · intro reg hex config bt conn
    have hglob := Ne.symm (testPoolIdOf_ne_global hex)
    unfold authCredentialProbe
    cases hinit : initializeSessionPool reg (testPoolIdOf hex) config bt with
    | error e =>
      exact closeSessionPool_closeLog_count_ne reg (testPoolIdOf hex) "global" hglob
    | ok reg1 =>
      have hlog : reg1.closeLog = reg.closeLog := by
        unfold initializeSessionPool at hinit
        split at hinit
        · cases hinit; rfl
        · split at hinit
          · cases hinit
          · cases hinit; rfl
      rw [closeSessionPool_closeLog_count_ne reg1 (testPoolIdOf hex) "global" hglob, hlog]
  · intro reg token hlen
    exact closeSessionPool_closeLog_count_ne reg token "global"
      (Ne.symm (length43_ne_global token hlen))
  · intro reg hnd hsome
    unfold closeAllSessionPools
    rw [foldl_closeSessionPool_closeLog (reg.pools.map Prod.fst) reg hnd]
    rw [List.count_append]
    have hmem : "global" ∈ reg.pools.map Prod.fst :=
      (mapGet_isSome_iff_mem_keys reg.pools "global").mp hsome
    rw [List.count_filter (p := fun k => (mapGet reg.pools k).isSome)
      (a := "global") hsome]
    rw [List.count_eq_one_of_mem hnd hmem]

/-- Witness for C3 at concrete registries: a per-token key is closed by
the failure cleanup while a global key is untouched, a 43-character token
never maps to the global pool, and shutdown over a registry holding the
global pool closes it exactly once. -/
theorem globalPool_preserved_on_init_failure_witness :
    (initializeFlowCleanup ⟨[("tok-x", cfg0)], []⟩ "tok-x"
        InitStepFailure.sessionCreate).1 =
      closeSessionPool ⟨[("tok-x", cfg0)], []⟩ "tok-x" ∧
    (initializeFlowCleanup ⟨[("global", cfg0)], []⟩ "global"
        InitStepFailure.sessionCreate).1 = ⟨[("global", cfg0)], []⟩ ∧
    (tokenCleanupCallback ⟨[("global", cfg0)], []⟩
        "AAAAAAAAAAAAAAAAAAAAAAAAAAAAAAAAAAAAAAAAAAA").closeLog.count "global" =
      ([] : List String).count "global" ∧
    (closeAllSessionPools ⟨[("global", cfg0)], []⟩).closeLog.count "global" =
      ([] : List String).count "global" + 1 := by
  refine ⟨?_, ?_, ?_, ?_⟩
  · exact globalPool_preserved_on_init_failure.1 ⟨[("tok-x", cfg0)], []⟩ "tok-x"
      InitStepFailure.sessionCreate (by decide) (by decide)
  · exact globalPool_preserved_on_init_failure.2.1 ⟨[("global", cfg0)], []⟩
      InitStepFailure.sessionCreate
  · exact globalPool_preserved_on_init_failure.2.2.2.2.2.1 ⟨[("global", cfg0)], []⟩
      "AAAAAAAAAAAAAAAAAAAAAAAAAAAAAAAAAAAAAAAAAAA" (by decide)
  · exact globalPool_preserved_on_init_failure.2.2.2.2.2.2 ⟨[("global", cfg0)], []⟩
      (by decide) (by decide)

end MCPServer
